import Mathlib

/-!
Verification of the MCP protocol adapter of the ai-incident-analyzer
repository (src/mcp/src/index.ts).  The adapter exposes six tools,
forwards each invocation to a remote incident-management HTTP service
through a shared axios instance, and normalizes results (success bodies
and axios failures) into a uniform text content envelope.

The embedding below models, faithfully to the TypeScript source:
  * JSON values as decoded from HTTP bodies (numbers at integer
    precision; objects keep insertion order as JavaScript does);
  * the serializer `JSON.stringify(value, null, 2)` used by every
    handler's success path, together with a `JSON.parse`-style reader
    used to state the round-trip property;
  * the error normalizer `handleAxiosError`, including the JavaScript
    semantics of `error.response?.data.message ?? error.message`
    (optional chaining guards only `response`, so a present response
    with a null body makes the member access itself throw a TypeError);
  * the six registered tools, their zod input schemas and the outbound
    requests they build.
-/

set_option maxHeartbeats 1600000

namespace IncidentMCP

/-- JSON values as decoded from HTTP bodies.  Numbers are modelled at
integer precision (the adapter's exercised payloads use integral
numbers; floating-point printing is outside this embedding).  Objects
keep insertion order, mirroring JavaScript object semantics. -/
inductive Json where
  | null : Json
  | bool (b : Bool) : Json
  | num (n : Int) : Json
  | str (s : String) : Json
  | arr (elems : List Json) : Json
  | obj (fields : List (String × Json)) : Json

/-- Decimal digits of a natural number, most significant first. -/
def natChars (n : Nat) : List Char :=
  if _h : n < 10 then [Char.ofNat (48 + n)]
  else natChars (n / 10) ++ [Char.ofNat (48 + n % 10)]
termination_by n
decreasing_by exact Nat.div_lt_self (by omega) (by omega)

/-- Decimal rendering of an integer, as JavaScript prints integral
numbers. -/
def intChars (n : Int) : List Char :=
  if n < 0 then '-' :: natChars n.natAbs else natChars n.toNat

/-- Hexadecimal digit (lowercase), as used in JSON `\u00XX` escapes. -/
def hexChar (n : Nat) : Char :=
  Char.ofNat (if n < 10 then 48 + n else 87 + n)

/-- The escape sequence `JSON.stringify` emits for one character. -/
def escChar (c : Char) : List Char :=
  if c = '"' then ['\\', '"']
  else if c = '\\' then ['\\', '\\']
  else if c = '\x08' then ['\\', 'b']
  else if c = '\t' then ['\\', 't']
  else if c = '\n' then ['\\', 'n']
  else if c = '\x0c' then ['\\', 'f']
  else if c = '\r' then ['\\', 'r']
  else if c.toNat < 32 then
    ['\\', 'u', '0', '0', hexChar (c.toNat / 16), hexChar (c.toNat % 16)]
  else [c]

/-- Escape every character of a string body. -/
def escList : List Char → List Char
  | [] => []
  | c :: cs => escChar c ++ escList cs

/-- Indentation emitted by `JSON.stringify(value, null, 2)` at nesting
depth `d`. -/
def indentChars (d : Nat) : List Char :=
  List.replicate (2 * d) ' '

mutual
/-- Characters of `JSON.stringify(v, null, 2)` with the current nesting
depth `d`. -/
def strAux : Json → Nat → List Char
  | .null, _ => ['n', 'u', 'l', 'l']
  | .bool true, _ => ['t', 'r', 'u', 'e']
  | .bool false, _ => ['f', 'a', 'l', 's', 'e']
  | .num n, _ => intChars n
  | .str s, _ => '"' :: (escList s.data ++ ['"'])
  | .arr [], _ => ['[', ']']
  | .arr (x :: xs), d =>
      '[' :: '\n' :: (elemsChars (x :: xs) (d + 1) ++
        '\n' :: (indentChars d ++ [']']))
  | .obj [], _ => ['{', '}']
  | .obj (f :: fs), d =>
      '{' :: '\n' :: (fieldsChars (f :: fs) (d + 1) ++
        '\n' :: (indentChars d ++ ['}']))

/-- Characters of the comma-and-newline separated array elements, each
on its own indented line. -/
def elemsChars : List Json → Nat → List Char
  | [], _ => []
  | x :: xs, d =>
      indentChars d ++ (strAux x d ++
        ((match xs with | [] => [] | _ :: _ => [',', '\n']) ++
          elemsChars xs d))

/-- Characters of the comma-and-newline separated object members, each
on its own indented line as `"key": value`. -/
def fieldsChars : List (String × Json) → Nat → List Char
  | [], _ => []
  | (k, v) :: fs, d =>
      indentChars d ++ ('"' :: (escList k.data ++ ('"' :: ':' :: ' ' ::
        (strAux v d ++
          ((match fs with | [] => [] | _ :: _ => [',', '\n']) ++
            fieldsChars fs d)))))
end

/-- The string `JSON.stringify(v, null, 2)` — exactly what every tool
handler places into the envelope's text block on success. -/
def Json.stringify (v : Json) : String :=
  String.mk (strAux v 0)

/-- Whitespace characters skipped by `JSON.parse` between tokens. -/
def isWsChar (c : Char) : Bool :=
  c = ' ' || c = '\n' || c = '\t' || c = '\r'

/-- Drop leading whitespace. -/
def skipWs : List Char → List Char
  | [] => []
  | c :: cs => if isWsChar c then skipWs cs else c :: cs

/-- Value of one hexadecimal digit, if any. -/
def hexVal (c : Char) : Option Nat :=
  if c.isDigit then some (c.toNat - 48)
  else if 97 ≤ c.toNat && c.toNat ≤ 102 then some (c.toNat - 87)
  else if 65 ≤ c.toNat && c.toNat ≤ 70 then some (c.toNat - 55)
  else none

/-- Resolution of a one-character JSON escape. -/
def unescChar (e : Char) : Option Char :=
  if e = '"' then some '"'
  else if e = '\\' then some '\\'
  else if e = '/' then some '/'
  else if e = 'b' then some '\x08'
  else if e = 'f' then some '\x0c'
  else if e = 'n' then some '\n'
  else if e = 'r' then some '\r'
  else if e = 't' then some '\t'
  else none

/-- Read the body of a JSON string literal up to (and consuming) the
closing quote, resolving escapes; returns the decoded characters and
the rest of the input. -/
def parseStrChars : List Char → Option (List Char × List Char)
  | [] => none
  | c :: cs =>
    if c = '"' then some ([], cs)
    else if c = '\\' then
      match cs with
      | [] => none
      | e :: cs2 =>
        if e = 'u' then
          match cs2 with
          | h1 :: h2 :: h3 :: h4 :: cs3 =>
            match hexVal h1, hexVal h2, hexVal h3, hexVal h4 with
            | some a, some b, some c4, some d4 =>
              match parseStrChars cs3 with
              | some (s, r) =>
                  some (Char.ofNat (((a * 16 + b) * 16 + c4) * 16 + d4) :: s, r)
              | none => none
            | _, _, _, _ => none
          | _ => none
        else
          match unescChar e with
          | some ec =>
            match parseStrChars cs2 with
            | some (s, r) => some (ec :: s, r)
            | none => none
          | none => none
    else
      match parseStrChars cs with
      | some (s, r) => some (c :: s, r)
      | none => none

/-- Digit-accumulating loop of the number reader: consumes a maximal
run of decimal digits, folding them onto `acc`. -/
def digitsLoop : List Char → Nat → Nat × List Char
  | [], acc => (acc, [])
  | c :: cs, acc =>
      if c.isDigit then digitsLoop cs (acc * 10 + (c.toNat - 48))
      else (acc, c :: cs)

mutual
/-- Fueled recursive-descent JSON value reader (the fuel only bounds
nesting; `jsonParse` below supplies enough for any input). -/
def parseVal : Nat → List Char → Option (Json × List Char)
  | 0, _ => none
  | fuel + 1, cs =>
    match skipWs cs with
    | [] => none
    | c :: cs1 =>
      if c = 'n' then
        match cs1 with
        | 'u' :: 'l' :: 'l' :: cs2 => some (.null, cs2)
        | _ => none
      else if c = 't' then
        match cs1 with
        | 'r' :: 'u' :: 'e' :: cs2 => some (.bool true, cs2)
        | _ => none
      else if c = 'f' then
        match cs1 with
        | 'a' :: 'l' :: 's' :: 'e' :: cs2 => some (.bool false, cs2)
        | _ => none
      else if c = '"' then
        match parseStrChars cs1 with
        | some (s, cs2) => some (.str (String.mk s), cs2)
        | none => none
      else if c = '[' then
        match skipWs cs1 with
        | ']' :: cs2 => some (.arr [], cs2)
        | cs2 =>
          match parseElems fuel cs2 with
          | some (vs, cs3) => some (.arr vs, cs3)
          | none => none
      else if c = '{' then
        match skipWs cs1 with
        | '}' :: cs2 => some (.obj [], cs2)
        | cs2 =>
          match parseFields fuel cs2 with
          | some (fs, cs3) => some (.obj fs, cs3)
          | none => none
      else if c = '-' then
        match cs1 with
        | [] => none
        | d :: cs2 =>
          if d.isDigit then
            let p := digitsLoop (d :: cs2) 0
            some (.num (-(p.1 : Int)), p.2)
          else none
      else if c.isDigit then
        let p := digitsLoop (c :: cs1) 0
        some (.num (p.1 : Int), p.2)
      else none

/-- Read one or more comma-separated array elements up to (and
consuming) the closing bracket. -/
def parseElems : Nat → List Char → Option (List Json × List Char)
  | 0, _ => none
  | fuel + 1, cs =>
    match parseVal fuel cs with
    | some (v, cs1) =>
      match skipWs cs1 with
      | ',' :: cs2 =>
        match parseElems fuel cs2 with
        | some (vs, cs3) => some (v :: vs, cs3)
        | none => none
      | ']' :: cs2 => some ([v], cs2)
      | _ => none
    | none => none

/-- Read one or more comma-separated object members up to (and
consuming) the closing brace. -/
def parseFields : Nat → List Char → Option (List (String × Json) × List Char)
  | 0, _ => none
  | fuel + 1, cs =>
    match skipWs cs with
    | '"' :: cs1 =>
      match parseStrChars cs1 with
      | some (k, cs2) =>
        match skipWs cs2 with
        | ':' :: cs3 =>
          match parseVal fuel cs3 with
          | some (v, cs4) =>
            match skipWs cs4 with
            | ',' :: cs5 =>
              match parseFields fuel cs5 with
              | some (fs, cs6) => some ((String.mk k, v) :: fs, cs6)
              | none => none
            | '}' :: cs5 => some ([(String.mk k, v)], cs5)
            | _ => none
          | none => none
        | _ => none
      | none => none
    | _ => none
end

mutual
/-- Fuel sufficient for `parseVal` to read back `v`. -/
def needVal : Json → Nat
  | .arr xs => needElems xs + 1
  | .obj fs => needFields fs + 1
  | _ => 1

/-- Fuel sufficient for `parseElems` to read back `xs`. -/
def needElems : List Json → Nat
  | [] => 1
  | x :: xs => max (needVal x) (needElems xs) + 1

/-- Fuel sufficient for `parseFields` to read back `fs`. -/
def needFields : List (String × Json) → Nat
  | [] => 1
  | (_, v) :: fs => max (needVal v) (needFields fs) + 1
end

/-- A `JSON.parse`-style reader for whole strings: reads one value and
requires only trailing whitespace after it. -/
def jsonParse (s : String) : Option Json :=
  match parseVal (s.data.length + 1) s.data with
  | some (v, rest) => if skipWs rest = [] then some v else none
  | none => none

/-- Does the input start with a decimal digit?  (The only context in
which the character following a printed token matters to the reader.) -/
def digitHead : List Char → Bool
  | [] => false
  | c :: _ => c.isDigit

theorem natChars_lt {n : Nat} (h : n < 10) :
    natChars n = [Char.ofNat (48 + n)] := by
  rw [natChars]; simp [h]

theorem natChars_ge {n : Nat} (h : ¬ n < 10) :
    natChars n = natChars (n / 10) ++ [Char.ofNat (48 + n % 10)] := by
  rw [natChars]; simp [h]

theorem digitCharFacts : ∀ d, d < 10 →
    ((Char.ofNat (48 + d)).isDigit = true ∧
     (Char.ofNat (48 + d)).toNat = 48 + d ∧
     isWsChar (Char.ofNat (48 + d)) = false ∧
     Char.ofNat (48 + d) ≠ 'n' ∧ Char.ofNat (48 + d) ≠ 't' ∧
     Char.ofNat (48 + d) ≠ 'f' ∧ Char.ofNat (48 + d) ≠ '"' ∧
     Char.ofNat (48 + d) ≠ '[' ∧ Char.ofNat (48 + d) ≠ '{' ∧
     Char.ofNat (48 + d) ≠ '-' ∧ Char.ofNat (48 + d) ≠ ']') := by
  decide

theorem natChars_head (n : Nat) :
    ∃ d t, d < 10 ∧ natChars n = Char.ofNat (48 + d) :: t := by
  induction n using Nat.strong_induction_on with
  | _ n ih =>
    by_cases h : n < 10
    · exact ⟨n, [], h, natChars_lt h⟩
    · obtain ⟨d, t, hd, ht⟩ := ih (n / 10) (Nat.div_lt_self (by omega) (by omega))
      exact ⟨d, t ++ [Char.ofNat (48 + n % 10)], hd, by rw [natChars_ge h, ht]; rfl⟩

theorem digitsLoop_stop {rest : List Char} (acc : Nat)
    (h : digitHead rest = false) : digitsLoop rest acc = (acc, rest) := by
  cases rest with
  | nil => rfl
  | cons c cs => simp [digitHead] at h; simp [digitsLoop, h]

theorem digitsLoop_natChars :
    ∀ n acc rest, digitsLoop (natChars n ++ rest) acc =
      digitsLoop rest (acc * 10 ^ (natChars n).length + n) := by
  intro n
  induction n using Nat.strong_induction_on with
  | _ n ih =>
    intro acc rest
    by_cases h : n < 10
    · rw [natChars_lt h]
      obtain ⟨hdig, htn, -⟩ := digitCharFacts n h
      simp [digitsLoop, hdig, htn]
    · rw [natChars_ge h, List.append_assoc,
        ih (n / 10) (Nat.div_lt_self (by omega) (by omega))]
      obtain ⟨hdig, htn, -⟩ := digitCharFacts (n % 10) (by omega)
      simp only [List.singleton_append, digitsLoop, hdig, if_pos, htn,
        List.length_append, List.length_singleton]
      congr 1
      have hp : 10 ^ ((natChars (n / 10)).length + 1) =
          10 ^ (natChars (n / 10)).length * 10 := by
        rw [pow_succ]
      rw [hp, ← mul_assoc]
      generalize acc * 10 ^ ((natChars (n / 10)).length) = A
      omega

theorem skipWs_cons_ws {c : Char} (cs : List Char) (h : isWsChar c = true) :
    skipWs (c :: cs) = skipWs cs := by
  simp [skipWs, h]

theorem skipWs_cons_not {c : Char} (cs : List Char) (h : isWsChar c = false) :
    skipWs (c :: cs) = c :: cs := by
  simp [skipWs, h]

theorem skipWs_replicate (n : Nat) (cs : List Char) :
    skipWs (List.replicate n ' ' ++ cs) = skipWs cs := by
  induction n with
  | zero => rfl
  | succ n ih => simpa [List.replicate_succ, skipWs, isWsChar] using ih

theorem skipWs_indent (d : Nat) (cs : List Char) :
    skipWs (indentChars d ++ cs) = skipWs cs :=
  skipWs_replicate (2 * d) cs

theorem skipWs_newline (cs : List Char) : skipWs ('\n' :: cs) = skipWs cs :=
  skipWs_cons_ws cs (by decide)

theorem skipWs_idem (cs : List Char) : skipWs (skipWs cs) = skipWs cs := by
  induction cs with
  | nil => rfl
  | cons c cs ih =>
    by_cases h : isWsChar c = true
    · rw [skipWs_cons_ws cs h, ih]
    · rw [skipWs_cons_not cs (by simpa using h),
        skipWs_cons_not cs (by simpa using h)]

theorem parseVal_skipWs (f : Nat) (cs : List Char) :
    parseVal f (skipWs cs) = parseVal f cs := by
  cases f with
  | zero => rfl
  | succ f => simp only [parseVal, skipWs_idem]

theorem parseElems_skipWs (f : Nat) (cs : List Char) :
    parseElems f (skipWs cs) = parseElems f cs := by
  cases f with
  | zero => rfl
  | succ f => simp only [parseElems, parseVal_skipWs]

theorem parseFields_skipWs (f : Nat) (cs : List Char) :
    parseFields f (skipWs cs) = parseFields f cs := by
  cases f with
  | zero => rfl
  | succ f => simp only [parseFields, skipWs_idem]

theorem hexVal_hexChar : ∀ m, m < 16 → hexVal (hexChar m) = some m := by
  decide

theorem parseStr_esc :
    ∀ (s rest : List Char), parseStrChars (escList s ++ ('"' :: rest)) = some (s, rest) := by
  intro s
  induction s with
  | nil =>
    intro rest
    rw [escList, List.nil_append, parseStrChars.eq_def]
    simp
  | cons c cs ih =>
    intro rest
    rw [escList, List.append_assoc]
    by_cases h1 : c = '"'
    · subst h1
      rw [show escChar '"' = ['\\', '"'] from rfl]
      simp only [List.cons_append, List.nil_append]
      rw [parseStrChars.eq_def]
      simp [unescChar, ih]
    · by_cases h2 : c = '\\'
      · subst h2
        rw [show escChar '\\' = ['\\', '\\'] from rfl]
        simp only [List.cons_append, List.nil_append]
        rw [parseStrChars.eq_def]
        simp [unescChar, ih]
      · by_cases h3 : c = '\x08'
        · subst h3
          rw [show escChar '\x08' = ['\\', 'b'] from rfl]
          simp only [List.cons_append, List.nil_append]
          rw [parseStrChars.eq_def]
          simp [unescChar, ih]
        · by_cases h4 : c = '\t'
          · subst h4
            rw [show escChar '\t' = ['\\', 't'] from rfl]
            simp only [List.cons_append, List.nil_append]
            rw [parseStrChars.eq_def]
            simp [unescChar, ih]
          · by_cases h5 : c = '\n'
            · subst h5
              rw [show escChar '\n' = ['\\', 'n'] from rfl]
              simp only [List.cons_append, List.nil_append]
              rw [parseStrChars.eq_def]
              simp [unescChar, ih]
            · by_cases h6 : c = '\x0c'
              · subst h6
                rw [show escChar '\x0c' = ['\\', 'f'] from rfl]
                simp only [List.cons_append, List.nil_append]
                rw [parseStrChars.eq_def]
                simp [unescChar, ih]
              · by_cases h7 : c = '\r'
                · subst h7
                  rw [show escChar '\r' = ['\\', 'r'] from rfl]
                  simp only [List.cons_append, List.nil_append]
                  rw [parseStrChars.eq_def]
                  simp [unescChar, ih]
                · by_cases h8 : c.toNat < 32
                  · have e0 : hexVal '0' = some 0 := by decide
                    have ehi : hexVal (hexChar (c.toNat / 16)) =
                        some (c.toNat / 16) := hexVal_hexChar _ (by omega)
                    have elo : hexVal (hexChar (c.toNat % 16)) =
                        some (c.toNat % 16) := hexVal_hexChar _ (by omega)
                    rw [show escChar c = ['\\', 'u', '0', '0',
                          hexChar (c.toNat / 16), hexChar (c.toNat % 16)] by
                        simp [escChar, h1, h2, h3, h4, h5, h6, h7, h8]]
                    simp only [List.cons_append, List.nil_append]
                    rw [parseStrChars.eq_def]
                    simp only [reduceIte, e0, ehi, elo, ih]
                    rw [show ((0 * 16 + 0) * 16 + c.toNat / 16) * 16 +
                        c.toNat % 16 = c.toNat by omega, Char.ofNat_toNat]
                    simp
                  · rw [show escChar c = [c] by
                        simp [escChar, h1, h2, h3, h4, h5, h6, h7, h8]]
                    simp only [List.cons_append, List.nil_append]
                    rw [parseStrChars.eq_def]
                    simp [h1, h2, ih]

theorem parseVal_ws {f : Nat} {w cs : List Char}
    (h : skipWs (w ++ cs) = skipWs cs) :
    parseVal f (w ++ cs) = parseVal f cs := by
  rw [← parseVal_skipWs f (w ++ cs), h, parseVal_skipWs]

theorem parseElems_ws {f : Nat} {w cs : List Char}
    (h : skipWs (w ++ cs) = skipWs cs) :
    parseElems f (w ++ cs) = parseElems f cs := by
  rw [← parseElems_skipWs f (w ++ cs), h, parseElems_skipWs]

theorem parseFields_ws {f : Nat} {w cs : List Char}
    (h : skipWs (w ++ cs) = skipWs cs) :
    parseFields f (w ++ cs) = parseFields f cs := by
  rw [← parseFields_skipWs f (w ++ cs), h, parseFields_skipWs]

theorem skipWs_space (cs : List Char) : skipWs (' ' :: cs) = skipWs cs :=
  skipWs_cons_ws cs (by decide)

theorem strAux_head (v : Json) (d : Nat) :
    ∃ c t, strAux v d = c :: t ∧ isWsChar c = false ∧ c ≠ ']' := by
  cases v with
  | null => exact ⟨'n', _, rfl, by decide, by decide⟩
  | bool b => cases b with
    | true => exact ⟨'t', _, rfl, by decide, by decide⟩
    | false => exact ⟨'f', _, rfl, by decide, by decide⟩
  | num n =>
    cases n with
    | ofNat m =>
      obtain ⟨dd, t, hdd, ht⟩ := natChars_head m
      obtain ⟨-, -, hws, -, -, -, -, -, -, -, hne⟩ := digitCharFacts dd hdd
      refine ⟨Char.ofNat (48 + dd), t, ?_, hws, hne⟩
      show intChars (Int.ofNat m) = _
      rw [intChars, if_neg (by simp [Int.ofNat_eq_coe])]
      exact ht
    | negSucc m =>
      refine ⟨'-', natChars (m + 1), ?_, by decide, by decide⟩
      show intChars (Int.negSucc m) = _
      rw [intChars, if_pos (Int.negSucc_lt_zero m)]
      rfl
  | str s => exact ⟨'"', _, rfl, by decide, by decide⟩
  | arr xs => cases xs with
    | nil => exact ⟨'[', _, rfl, by decide, by decide⟩
    | cons x xs => exact ⟨'[', _, rfl, by decide, by decide⟩
  | obj fs => cases fs with
    | nil => exact ⟨'{', _, rfl, by decide, by decide⟩
    | cons f fs => exact ⟨'{', _, rfl, by decide, by decide⟩

theorem parseVal_drop {f : Nat} {a b : List Char} (h : skipWs a = skipWs b) :
    parseVal f a = parseVal f b := by
  rw [← parseVal_skipWs f a, h, parseVal_skipWs]

theorem parseElems_drop {f : Nat} {a b : List Char} (h : skipWs a = skipWs b) :
    parseElems f a = parseElems f b := by
  rw [← parseElems_skipWs f a, h, parseElems_skipWs]

theorem parseFields_drop {f : Nat} {a b : List Char} (h : skipWs a = skipWs b) :
    parseFields f a = parseFields f b := by
  rw [← parseFields_skipWs f a, h, parseFields_skipWs]

theorem skipWs_elemsChars (x : Json) (xs : List Json) (dd : Nat) (T : List Char) :
    skipWs (elemsChars (x :: xs) dd ++ T) =
      strAux x dd ++ ((match xs with | [] => [] | _ :: _ => [',', '\n']) ++
        (elemsChars xs dd ++ T)) := by
  obtain ⟨c0, t0, ht0, hws0, -⟩ := strAux_head x dd
  simp only [elemsChars, List.append_assoc]
  rw [skipWs_indent, ht0]
  simp only [List.cons_append]
  rw [skipWs_cons_not _ hws0]

theorem skipWs_fieldsChars (k : String) (v : Json) (fs : List (String × Json))
    (dd : Nat) (T : List Char) :
    skipWs (fieldsChars ((k, v) :: fs) dd ++ T) =
      '"' :: (escList k.data ++ ('"' :: ':' :: ' ' :: (strAux v dd ++
        ((match fs with | [] => [] | _ :: _ => [',', '\n']) ++
          (fieldsChars fs dd ++ T))))) := by
  simp only [fieldsChars, List.append_assoc, List.cons_append]
  rw [skipWs_indent]
  rw [skipWs_cons_not _ (by decide)]

theorem one_le_needVal (v : Json) : 1 ≤ needVal v := by
  cases v <;> simp [needVal]

theorem one_le_needElems (xs : List Json) : 1 ≤ needElems xs := by
  cases xs <;> simp [needElems]

theorem one_le_needFields (fs : List (String × Json)) : 1 ≤ needFields fs := by
  cases fs with
  | nil => simp [needFields]
  | cons f fs => cases f; simp [needFields]

/-- Joint round-trip property of the reader against the writer, by
induction on fuel: with enough fuel, reading the printed characters of a
value (or of a non-empty element or member list) returns exactly that
value and leaves the trailing input untouched. -/
theorem rtAll : ∀ f : Nat,
    (∀ v d rest, needVal v ≤ f → digitHead rest = false →
      parseVal f (strAux v d ++ rest) = some (v, rest)) ∧
    (∀ x xs d e rest, needElems (x :: xs) ≤ f →
      parseElems f (elemsChars (x :: xs) d ++
        '\n' :: (indentChars e ++ (']' :: rest))) = some (x :: xs, rest)) ∧
    (∀ k v fs d e rest, needFields ((k, v) :: fs) ≤ f →
      parseFields f (fieldsChars ((k, v) :: fs) d ++
        '\n' :: (indentChars e ++ ('}' :: rest))) = some ((k, v) :: fs, rest)) := by
  intro f
  induction f with
  | zero =>
    refine ⟨fun v d rest h _ => absurd h ?_, fun x xs d e rest h => absurd h ?_,
      fun k v fs d e rest h => absurd h ?_⟩
    · have := one_le_needVal v; omega
    · have := one_le_needElems (x :: xs); omega
    · have := one_le_needFields ((k, v) :: fs); omega
  | succ f ih =>
    obtain ⟨ihV, ihE, ihF⟩ := ih
    refine ⟨?_, ?_, ?_⟩
    · intro v d rest hf hrest
      cases v with
      | null =>
        simp only [strAux, List.cons_append, List.nil_append]
        rw [parseVal, skipWs_cons_not _ (by decide)]
        simp
      | bool b =>
        cases b with
        | true =>
          simp only [strAux, List.cons_append, List.nil_append]
          rw [parseVal, skipWs_cons_not _ (by decide)]
          simp
        | false =>
          simp only [strAux, List.cons_append, List.nil_append]
          rw [parseVal, skipWs_cons_not _ (by decide)]
          simp
      | num n =>
        cases n with
        | ofNat m =>
          simp only [strAux]
          rw [show intChars (Int.ofNat m) = natChars m by
            rw [intChars, if_neg (by simp [Int.ofNat_eq_coe])]; rfl]
          obtain ⟨dd, t, hdd, ht⟩ := natChars_head m
          obtain ⟨hdig, htn, hws, hn, ht', hf', hq, hlb, hlc, hmin, hrb⟩ :=
            digitCharFacts dd hdd
          rw [ht, List.cons_append, parseVal, skipWs_cons_not _ hws]
          simp only [if_neg hn, if_neg ht', if_neg hf', if_neg hq, if_neg hlb,
            if_neg hlc, if_neg hmin, if_pos hdig]
          have hrecon : Char.ofNat (48 + dd) :: (t ++ rest) = natChars m ++ rest := by
            rw [ht]; rfl
          rw [hrecon, digitsLoop_natChars, digitsLoop_stop _ hrest]
          simp [Int.ofNat_eq_coe]
        | negSucc m =>
          simp only [strAux]
          rw [show intChars (Int.negSucc m) = '-' :: natChars (m + 1) by
            rw [intChars, if_pos (Int.negSucc_lt_zero m)]; rfl]
          obtain ⟨dd, t, hdd, ht⟩ := natChars_head (m + 1)
          obtain ⟨hdig, htn, hws, -, -, -, -, -, -, -, -⟩ := digitCharFacts dd hdd
          rw [List.cons_append, parseVal, skipWs_cons_not _ (by decide)]
          rw [ht, List.cons_append]
          simp only [if_neg (by decide : ¬('-' : Char) = 'n'),
            if_neg (by decide : ¬('-' : Char) = 't'),
            if_neg (by decide : ¬('-' : Char) = 'f'),
            if_neg (by decide : ¬('-' : Char) = '"'),
            if_neg (by decide : ¬('-' : Char) = '['),
            if_neg (by decide : ¬('-' : Char) = '{'),
            if_pos (rfl : ('-' : Char) = '-')]
          simp only [if_pos hdig]
          have hrecon : Char.ofNat (48 + dd) :: (t ++ rest) = natChars (m + 1) ++ rest := by
            rw [ht]; rfl
          rw [hrecon, digitsLoop_natChars, digitsLoop_stop _ hrest]
          simp only [zero_mul, zero_add]
          simp
          rw [Int.negSucc_eq]; ring
      | str s =>
        simp only [strAux, List.cons_append, List.append_assoc, List.singleton_append]
        rw [parseVal, skipWs_cons_not _ (by decide)]
        simp [parseStr_esc]
      | arr xs =>
        cases xs with
        | nil =>
          simp only [strAux, List.cons_append, List.singleton_append]
          rw [parseVal, skipWs_cons_not _ (by decide)]
          simp [skipWs, isWsChar]
        | cons x xs =>
          have hfe : needElems (x :: xs) ≤ f := by
            simp only [needVal] at hf; omega
          simp only [strAux, List.cons_append, List.append_assoc, List.singleton_append]
          rw [parseVal, skipWs_cons_not _ (by decide)]
          simp only [List.nil_append, if_neg (by decide : ¬('[' : Char) = 'n'),
            if_neg (by decide : ¬('[' : Char) = 't'),
            if_neg (by decide : ¬('[' : Char) = 'f'),
            if_neg (by decide : ¬('[' : Char) = '"'),
            if_pos (rfl : ('[' : Char) = '['), if_true]
          rw [skipWs_newline, skipWs_elemsChars x xs (d + 1)]
          obtain ⟨c0, t0, ht0, hws0, hne0⟩ := strAux_head x (d + 1)
          rw [ht0]
          simp only [List.cons_append]
          split
          · next cs2 heq =>
            rw [List.cons.injEq] at heq
            exact absurd heq.1 hne0
          · next =>
            rw [← List.cons_append, ← ht0,
              ← skipWs_elemsChars x xs (d + 1), parseElems_skipWs,
              ihE x xs (d + 1) d rest hfe]
      | obj fs =>
        cases fs with
        | nil =>
          simp only [strAux, List.cons_append, List.singleton_append]
          rw [parseVal, skipWs_cons_not _ (by decide)]
          simp [skipWs, isWsChar]
        | cons g fs =>
          obtain ⟨k, v⟩ := g
          have hff : needFields ((k, v) :: fs) ≤ f := by
            simp only [needVal] at hf; omega
          simp only [strAux, List.cons_append, List.append_assoc, List.singleton_append]
          rw [parseVal, skipWs_cons_not _ (by decide)]
          simp only [List.nil_append, if_neg (by decide : ¬('{' : Char) = 'n'),
            if_neg (by decide : ¬('{' : Char) = 't'),
            if_neg (by decide : ¬('{' : Char) = 'f'),
            if_neg (by decide : ¬('{' : Char) = '"'),
            if_neg (by decide : ¬('{' : Char) = '['),
            if_pos (rfl : ('{' : Char) = '{'), if_true]
          rw [skipWs_newline, skipWs_fieldsChars k v fs (d + 1)]
          split
          · next cs2 heq =>
            rw [List.cons.injEq] at heq
            exact absurd heq.1 (by decide)
          · next =>
            rw [← skipWs_fieldsChars k v fs (d + 1), parseFields_skipWs,
              ihF k v fs (d + 1) d rest hff]
    · intro x xs d e rest hfe
      have hfx : needVal x ≤ f := by
        simp only [needElems] at hfe; omega
      rw [parseElems, ← parseVal_skipWs f, skipWs_elemsChars x xs d]
      cases xs with
      | nil =>
        simp only [List.nil_append, elemsChars]
        rw [ihV x d _ hfx (by rfl)]
        simp only [skipWs_newline, skipWs_indent]
        rw [skipWs_cons_not _ (by decide)]
        simp
      | cons y ys =>
        have hfe2 : needElems (y :: ys) ≤ f := by
          simp only [needElems] at hfe ⊢; omega
        simp only [List.cons_append, List.nil_append]
        rw [ihV x d _ hfx (by rfl)]
        simp only [skipWs_cons_not _ (by decide : isWsChar ',' = false)]
        simp only [parseElems_drop (skipWs_newline _)]
        rw [ihE y ys d e rest hfe2]
    · intro k v fs d e rest hff
      have hfv : needVal v ≤ f := by
        simp only [needFields] at hff; omega
      rw [parseFields, skipWs_fieldsChars k v fs d]
      simp only [parseStr_esc]
      rw [skipWs_cons_not _ (by decide)]
      simp only [parseVal_drop (skipWs_space _)]
      cases fs with
      | nil =>
        simp only [List.nil_append, fieldsChars]
        rw [ihV v d _ hfv (by rfl)]
        simp only [skipWs_newline, skipWs_indent]
        rw [skipWs_cons_not _ (by decide)]
        simp
      | cons g gs =>
        obtain ⟨k2, v2⟩ := g
        have hff2 : needFields ((k2, v2) :: gs) ≤ f := by
          simp only [needFields] at hff ⊢; omega
        simp only [List.cons_append, List.nil_append]
        rw [ihV v d _ hfv (by rfl)]
        simp only [skipWs_cons_not _ (by decide : isWsChar ',' = false)]
        simp only [parseFields_drop (skipWs_newline _)]
        rw [ihF k2 v2 gs d e rest hff2]

theorem one_le_natChars_len (n : Nat) : 1 ≤ (natChars n).length := by
  obtain ⟨d, t, -, ht⟩ := natChars_head n
  rw [ht]; simp

theorem one_le_intChars_len (n : Int) : 1 ≤ (intChars n).length := by
  rw [intChars]
  by_cases h : n < 0
  · rw [if_pos h]; simp
  · rw [if_neg h]; exact one_le_natChars_len _

mutual
theorem needVal_le_len (v : Json) (d : Nat) : needVal v ≤ (strAux v d).length := by
  cases v with
  | null => simp [needVal, strAux]
  | bool b => cases b <;> simp [needVal, strAux]
  | num n =>
    have := one_le_intChars_len n
    simp only [needVal, strAux]
    omega
  | str s => simp [needVal, strAux]
  | arr xs =>
    cases xs with
    | nil => simp [needVal, needElems, strAux]
    | cons x xs =>
      have h := needElems_le_len x xs (d + 1)
      simp only [needVal, strAux, List.length_cons, List.length_append]
      omega
  | obj fs =>
    cases fs with
    | nil => simp [needVal, needFields, strAux]
    | cons g fs =>
      obtain ⟨k, v⟩ := g
      have h := needFields_le_len k v fs (d + 1)
      simp only [needVal, strAux, List.length_cons, List.length_append]
      omega
termination_by sizeOf v
decreasing_by all_goals simp_wf

theorem needElems_le_len (x : Json) (xs : List Json) (d : Nat) :
    needElems (x :: xs) ≤ (elemsChars (x :: xs) d).length + 1 := by
  cases xs with
  | nil =>
    have h := needVal_le_len x d
    have h0 := one_le_needVal x
    rw [needElems, elemsChars]
    simp only [elemsChars, needElems, List.length_append, List.length_nil,
      indentChars, List.length_replicate]
    omega
  | cons y ys =>
    have h1 := needVal_le_len x d
    have h0 := one_le_needVal x
    have h2 := needElems_le_len y ys d
    rw [needElems, elemsChars]
    simp only [List.length_append, List.length_cons, indentChars,
      List.length_replicate]
    omega
termination_by sizeOf (x :: xs)
decreasing_by all_goals (simp_wf <;> omega)

theorem needFields_le_len (k : String) (v : Json) (fs : List (String × Json)) (d : Nat) :
    needFields ((k, v) :: fs) ≤ (fieldsChars ((k, v) :: fs) d).length + 1 := by
  cases fs with
  | nil =>
    have h := needVal_le_len v d
    have h0 := one_le_needVal v
    rw [needFields, fieldsChars]
    simp only [fieldsChars, needFields, List.length_append, List.length_cons,
      List.length_nil, indentChars, List.length_replicate]
    omega
  | cons g gs =>
    obtain ⟨k2, v2⟩ := g
    have h1 := needVal_le_len v d
    have h0 := one_le_needVal v
    have h2 := needFields_le_len k2 v2 gs d
    rw [needFields, fieldsChars]
    simp only [List.length_append, List.length_cons, indentChars,
      List.length_replicate]
    omega
termination_by sizeOf ((k, v) :: fs)
decreasing_by all_goals (simp_wf <;> omega)
end

/-- Reading back the printed form of any JSON value returns exactly that
value: the `JSON.parse`-style reader inverts `JSON.stringify(·, null, 2)`. -/
theorem jsonParse_stringify (v : Json) : jsonParse (Json.stringify v) = some v := by
  have h1 : needVal v ≤ (strAux v 0).length + 1 := by
    have := needVal_le_len v 0; omega
  have h2 : parseVal ((strAux v 0).length + 1) (strAux v 0 ++ []) = some (v, []) :=
    (rtAll _).1 v 0 [] h1 (by rfl)
  rw [List.append_nil] at h2
  show (match parseVal ((strAux v 0).length + 1) (strAux v 0) with
    | some (w, rest) => if skipWs rest = [] then some w else none
    | none => none) = some v
  rw [h2]
  rfl
/-- Ordered lookup of a field of a JavaScript object. -/
def lookupField : List (String × Json) → String → Option Json
  | [], _ => none
  | (k, v) :: fs, key => if k = key then some v else lookupField fs key

/-- One content block of a tool response, `{type: "text", text: ...}`. -/
structure ContentBlock where
  type : String
  text : String
deriving DecidableEq

/-- The `TextContent` shape every handler returns: a content array and
an optional `isError` flag (absent on success, `true` on failure). -/
structure TextContent where
  content : List ContentBlock
  isError : Option Bool
deriving DecidableEq

/-- The part of an axios response the adapter reads: HTTP status and
decoded body. -/
structure AxiosResponse where
  status : Nat
  data : Json

/-- The part of an axios error the normalizer reads: `response` is
present when the remote answered with a failure status and absent on
connection failure or timeout; `message` is the generic failure
message axios attaches to the error. -/
structure AxiosError where
  response : Option AxiosResponse
  message : String

/-- A value thrown inside a handler: an axios failure (for which
`axios.isAxiosError` answers true) or any other thrown value. -/
inductive ThrownValue where
  | axios (e : AxiosError)
  | other (v : Json)

/-- What escapes `handleAxiosError` when it does not return: the
original error re-raised unchanged, or the TypeError raised by the
member access `error.response?.data.message` itself. -/
inductive HandlerFault where
  | rethrown (v : ThrownValue)
  | typeError (msg : String)

/-- JavaScript member access `receiver.message`: throws a TypeError
when the receiver is null, yields the field (or undefined, here `none`)
when the receiver is an object, and yields undefined on auto-boxed
primitives. -/
def getMessageProp : Json → Except String (Option Json)
  | .null => .error "Cannot read properties of null"
  | .obj fields => .ok (lookupField fields "message")
  | _ => .ok none

mutual
/-- JavaScript string conversion, as a template literal applies it. -/
def jsTemplateStr : Json → String
  | .null => "null"
  | .bool true => "true"
  | .bool false => "false"
  | .num n => String.mk (intChars n)
  | .str s => s
  | .arr xs => jsArrJoin xs true
  | .obj _ => "[object Object]"

/-- Array-to-string conversion: elements joined with commas, null
elements contributing the empty string. -/
def jsArrJoin : List Json → Bool → String
  | [], _ => ""
  | x :: xs, first =>
      (if first then "" else ",") ++
        (match x with | .null => "" | _ => jsTemplateStr x) ++ jsArrJoin xs false
end

/-- The error envelope shape built by `handleAxiosError`. -/
def errorEnvelope (msg : String) : TextContent :=
  { content := [{ type := "text", text := msg }], isError := some true }

/-- The TypeScript `handleAxiosError`: an axios error is converted to a
`TextContent` with text built by the template literal around
`error.response?.data.message ?? error.message`; any other error is
re-thrown unchanged.  The optional chaining guards only `response`, so
when a response is present its `data` is dereferenced unconditionally
and a null body makes the access itself throw. -/
def handleAxiosError (error : ThrownValue) : Except HandlerFault TextContent :=
  match error with
  | .axios e =>
    match e.response with
    | none => .ok (errorEnvelope ("API error: " ++ e.message))
    | some r =>
      match getMessageProp r.data with
      | .error msg => .error (.typeError msg)
      | .ok m =>
        match m with
        | none => .ok (errorEnvelope ("API error: " ++ e.message))
        | some .null => .ok (errorEnvelope ("API error: " ++ e.message))
        | some v => .ok (errorEnvelope ("API error: " ++ jsTemplateStr v))
  | .other _ => .error (.rethrown error)

/-- The envelope a handler returns on a 2xx response: a single text
block holding `JSON.stringify(response.data, null, 2)`, no `isError`. -/
def successEnvelope (data : Json) : TextContent :=
  { content := [{ type := "text", text := Json.stringify data }], isError := none }

/-- Outcome of the single axios call a handler performs. -/
inductive RemoteOutcome where
  | success (data : Json)
  | failure (err : ThrownValue)

/-- Handler of `get_incidents` (GET /api/incidents). -/
def getIncidentsHandler : RemoteOutcome → Except HandlerFault TextContent
  | .success data => .ok (successEnvelope data)
  | .failure err => handleAxiosError err

/-- Handler of `add_incident` (POST /api/incidents). -/
def addIncidentHandler : RemoteOutcome → Except HandlerFault TextContent
  | .success data => .ok (successEnvelope data)
  | .failure err => handleAxiosError err

/-- Handler of `analyze_root_cause` (POST /api/analyze/root-cause). -/
def analyzeRootCauseHandler : RemoteOutcome → Except HandlerFault TextContent
  | .success data => .ok (successEnvelope data)
  | .failure err => handleAxiosError err

/-- Handler of `analyze_patterns` (POST /api/analyze/patterns). -/
def analyzePatternsHandler : RemoteOutcome → Except HandlerFault TextContent
  | .success data => .ok (successEnvelope data)
  | .failure err => handleAxiosError err

/-- Handler of `search_incidents` (GET /api/search). -/
def searchIncidentsHandler : RemoteOutcome → Except HandlerFault TextContent
  | .success data => .ok (successEnvelope data)
  | .failure err => handleAxiosError err

/-- Handler of `get_stats` (GET /api/incidents/stats). -/
def getStatsHandler : RemoteOutcome → Except HandlerFault TextContent
  | .success data => .ok (successEnvelope data)
  | .failure err => handleAxiosError err

/-- The six registered tools. -/
inductive Tool where
  | get_incidents
  | add_incident
  | analyze_root_cause
  | analyze_patterns
  | search_incidents
  | get_stats
deriving DecidableEq

/-- The response side of each tool's handler. -/
def toolHandler : Tool → RemoteOutcome → Except HandlerFault TextContent
  | .get_incidents => getIncidentsHandler
  | .add_incident => addIncidentHandler
  | .analyze_root_cause => analyzeRootCauseHandler
  | .analyze_patterns => analyzePatternsHandler
  | .search_incidents => searchIncidentsHandler
  | .get_stats => getStatsHandler

/-- Number of content envelopes the dispatch path of one invocation
writes back for a given remote outcome: one when the handler returns,
zero when a fault escapes it. -/
def envelopesProduced (t : Tool) (outcome : RemoteOutcome) : Nat :=
  match toolHandler t outcome with
  | .ok _ => 1
  | .error _ => 0

/-- Failure kinds the error normalizer recognizes: any axios error
(both a remote failure status and a network failure); other thrown
values are not recognized. -/
def recognizedOutcome : RemoteOutcome → Prop
  | .success _ => True
  | .failure (.axios _) => True
  | .failure (.other _) => False

/-- The tool catalogue in registration order: tool name with method and
path of the remote call its handler performs. -/
def toolRegistry : List (String × String × String) :=
  [("get_incidents", ("GET", "/api/incidents")),
   ("add_incident", ("POST", "/api/incidents")),
   ("analyze_root_cause", ("POST", "/api/analyze/root-cause")),
   ("analyze_patterns", ("POST", "/api/analyze/patterns")),
   ("search_incidents", ("GET", "/api/search")),
   ("get_stats", ("GET", "/api/incidents/stats"))]

/-- First registry entry with the given name, if any. -/
def lookupTool : List (String × String × String) → String → Option (String × String)
  | [], _ => none
  | (k, r) :: ts, name => if k = name then some r else lookupTool ts name

/-- Resolution of a tool name against the registry. -/
def resolveTool (name : String) : Option (String × String) :=
  lookupTool toolRegistry name

/-- Arguments of the three query tools after zod validation. -/
structure AnalyzeArgs where
  query : String
  k : Int
deriving DecidableEq

/-- zod parse of `{query: z.string(), k: z.number().default(5)}`: the
query must be a string; a missing `k` defaults to 5 and a present `k`
must be a number, passed through unchanged. -/
def parseAnalyzeArgs (args : Json) : Except String AnalyzeArgs :=
  match args with
  | .obj fields =>
    match lookupField fields "query" with
    | some (.str q) =>
      match lookupField fields "k" with
      | none => .ok { query := q, k := 5 }
      | some (.num n) => .ok { query := q, k := n }
      | some _ => .error "k: expected number"
    | some _ => .error "query: expected string"
    | none => .error "query: required"
  | _ => .error "expected object"

/-- An outbound HTTP request as a handler builds it: method, path and
payload (the request body for POST, the query params for GET). -/
structure OutboundRequest where
  method : String
  path : String
  payload : Json

/-- The request `analyze_root_cause` sends: POST body `{query, k}`. -/
def analyzeRootCauseRequest (a : AnalyzeArgs) : OutboundRequest :=
  { method := "POST", path := "/api/analyze/root-cause",
    payload := .obj [("query", .str a.query), ("k", .num a.k)] }

/-- The request `analyze_patterns` sends: POST body `{query, k}`. -/
def analyzePatternsRequest (a : AnalyzeArgs) : OutboundRequest :=
  { method := "POST", path := "/api/analyze/patterns",
    payload := .obj [("query", .str a.query), ("k", .num a.k)] }

/-- The request `search_incidents` sends: GET with `{query, k}` as
query params. -/
def searchIncidentsRequest (a : AnalyzeArgs) : OutboundRequest :=
  { method := "GET", path := "/api/search",
    payload := .obj [("query", .str a.query), ("k", .num a.k)] }

/-- A validated incident record (the zod schema of `add_incident`).
For the optional nullable fields the outer `Option` records presence
(absent/undefined is `none`) and the inner one records null. -/
structure Incident where
  incident_id : String
  timestamp : String
  category : String
  severity : String
  description : String
  root_cause : Option (Option String)
  resolution : Option (Option String)
  affected_components : Option (Option (List String))
  impact : Option (Option String)
  resolution_time_mins : Int
deriving DecidableEq

/-- zod `z.string()` on a required field. -/
def reqString (fields : List (String × Json)) (key : String) : Except String String :=
  match lookupField fields key with
  | some (.str s) => .ok s
  | some _ => .error (key ++ ": expected string")
  | none => .error (key ++ ": required")

/-- zod `z.number()` on a required field. -/
def reqNumber (fields : List (String × Json)) (key : String) : Except String Int :=
  match lookupField fields key with
  | some (.num n) => .ok n
  | some _ => .error (key ++ ": expected number")
  | none => .error (key ++ ": required")

/-- zod `z.string().nullable().optional()`: the field may be absent, or
null, or a string; anything else fails. -/
def optNullableString (fields : List (String × Json)) (key : String) :
    Except String (Option (Option String)) :=
  match lookupField fields key with
  | none => .ok none
  | some .null => .ok (some none)
  | some (.str s) => .ok (some (some s))
  | some _ => .error (key ++ ": expected string or null")

/-- Element check for `z.array(z.string())`. -/
def stringItems : List Json → Except String (List String)
  | [] => .ok []
  | .str s :: xs =>
    match stringItems xs with
    | .ok ss => .ok (s :: ss)
    | .error e => .error e
  | _ :: _ => .error "expected string"

/-- zod `z.array(z.string()).nullable().optional()`. -/
def optNullableStringArray (fields : List (String × Json)) (key : String) :
    Except String (Option (Option (List String))) :=
  match lookupField fields key with
  | none => .ok none
  | some .null => .ok (some none)
  | some (.arr xs) =>
    match stringItems xs with
    | .ok ss => .ok (some (some ss))
    | .error e => .error e
  | some _ => .error (key ++ ": expected array or null")

/-- zod parse of the incident record, checking the fields in schema
declaration order. -/
def parseIncident (v : Json) : Except String Incident :=
  match v with
  | .obj fields => do
    let iid ← reqString fields "incident_id"
    let ts ← reqString fields "timestamp"
    let cat ← reqString fields "category"
    let sev ← reqString fields "severity"
    let desc ← reqString fields "description"
    let rc ← optNullableString fields "root_cause"
    let res ← optNullableString fields "resolution"
    let ac ← optNullableStringArray fields "affected_components"
    let imp ← optNullableString fields "impact"
    let rtm ← reqNumber fields "resolution_time_mins"
    .ok { incident_id := iid, timestamp := ts, category := cat, severity := sev,
          description := desc, root_cause := rc, resolution := res,
          affected_components := ac, impact := imp, resolution_time_mins := rtm }
  | _ => .error "incident: expected object"

/-- zod parse of the `add_incident` tool arguments `{incident: ...}`. -/
def parseAddIncidentArgs (args : Json) : Except String Incident :=
  match args with
  | .obj fields =>
    match lookupField fields "incident" with
    | some v => parseIncident v
    | none => .error "incident: required"
  | _ => .error "expected object"

/-- Dispatch of one `add_incident` invocation: the server validates the
raw arguments against the declared zod schema before the handler runs;
only a successful validation reaches the handler, which then performs
exactly one POST.  The first component counts the HTTP calls made. -/
def addIncidentInvoke (args : Json) (outcome : RemoteOutcome) :
    Nat × Except String (Except HandlerFault TextContent) :=
  match parseAddIncidentArgs args with
  | .error e => (0, .error e)
  | .ok _ => (1, .ok (addIncidentHandler outcome))
/-- The message the spec prescribes for an HTTP-failure response:
prefer a structured non-nullish `message` field of the remote body when
present, else the generic failure message (spec 4.4). -/
def specRemoteMessage (e : AxiosError) : String :=
  match e.response with
  | none => e.message
  | some r =>
    match getMessageProp r.data with
    | .ok (some .null) => e.message
    | .ok (some v) => jsTemplateStr v
    | _ => e.message

theorem except_bind_ok {ε α β : Type} {x : Except ε α} {f : α → Except ε β} {b : β}
    (h : (x >>= f) = .ok b) : ∃ a, x = .ok a ∧ f a = .ok b := by
  cases x with
  | ok a => exact ⟨a, rfl, h⟩
  | error e => exact absurd h (by simp [Bind.bind, Except.bind])

theorem reqString_ok {fields : List (String × Json)} {key : String} {s : String}
    (h : reqString fields key = .ok s) :
    lookupField fields key = some (.str s) := by
  simp only [reqString] at h
  split at h
  · next s2 heq =>
    rw [Except.ok.injEq] at h
    rw [heq, h]
  · next => exact absurd h (by simp)
  · next => exact absurd h (by simp)

theorem reqNumber_ok {fields : List (String × Json)} {key : String} {n : Int}
    (h : reqNumber fields key = .ok n) :
    lookupField fields key = some (.num n) := by
  simp only [reqNumber] at h
  split at h
  · next n2 heq =>
    rw [Except.ok.injEq] at h
    rw [heq, h]
  · next => exact absurd h (by simp)
  · next => exact absurd h (by simp)

theorem parseIncident_ok_fields {fields : List (String × Json)} {inc : Incident}
    (h : parseIncident (.obj fields) = .ok inc) :
    lookupField fields "incident_id" = some (.str inc.incident_id) ∧
    lookupField fields "resolution_time_mins" = some (.num inc.resolution_time_mins) := by
  simp only [parseIncident] at h
  obtain ⟨iid, h1, h⟩ := except_bind_ok h
  obtain ⟨ts, h2, h⟩ := except_bind_ok h
  obtain ⟨cat, h3, h⟩ := except_bind_ok h
  obtain ⟨sev, h4, h⟩ := except_bind_ok h
  obtain ⟨desc, h5, h⟩ := except_bind_ok h
  obtain ⟨rc, h6, h⟩ := except_bind_ok h
  obtain ⟨res, h7, h⟩ := except_bind_ok h
  obtain ⟨ac, h8, h⟩ := except_bind_ok h
  obtain ⟨imp, h9, h⟩ := except_bind_ok h
  obtain ⟨rtm, h10, h⟩ := except_bind_ok h
  rw [Except.ok.injEq] at h
  subst h
  exact ⟨reqString_ok h1, reqNumber_ok h10⟩

theorem handleAxiosError_safe (e : AxiosError)
    (hsafe : ∀ r, e.response = some r → r.data ≠ Json.null) :
    handleAxiosError (.axios e) =
      .ok (errorEnvelope ("API error: " ++ specRemoteMessage e)) := by
  cases hr : e.response with
  | none => simp [handleAxiosError, specRemoteMessage, hr]
  | some r =>
    have hd : r.data ≠ Json.null := hsafe r hr
    cases hdata : r.data with
    | null => exact absurd hdata hd
    | bool b => simp [handleAxiosError, specRemoteMessage, hr, getMessageProp, hdata]
    | num n => simp [handleAxiosError, specRemoteMessage, hr, getMessageProp, hdata]
    | str s => simp [handleAxiosError, specRemoteMessage, hr, getMessageProp, hdata]
    | arr xs => simp [handleAxiosError, specRemoteMessage, hr, getMessageProp, hdata]
    | obj fls =>
      cases hm : lookupField fls "message" with
      | none =>
        simp [handleAxiosError, specRemoteMessage, hr, getMessageProp, hdata, hm]
      | some v =>
        cases v <;>
          simp [handleAxiosError, specRemoteMessage, hr, getMessageProp, hdata, hm]
/-- C1 (amended): for every axios error carrying an HTTP failure
response whose body is not null, the normalizer returns an envelope
with `isError = true` and text `"API error: <message>"`, where the
message is the body's structured non-nullish `message` field when
present and the generic failure message otherwise; in particular an
HTTP 500 with body `{"message": "db down"}` yields exactly
`"API error: db down"`. -/
theorem handleAxiosError_http_failure_message (e : AxiosError)
    (hsafe : ∀ r, e.response = some r → r.data ≠ Json.null) :
    handleAxiosError (.axios e) =
      .ok (errorEnvelope ("API error: " ++ specRemoteMessage e)) ∧
    handleAxiosError (.axios ⟨some ⟨500, .obj [("message", .str "db down")]⟩,
      "Request failed with status code 500"⟩) =
      .ok (errorEnvelope "API error: db down") :=
  ⟨handleAxiosError_safe e hsafe, by rfl⟩

/-- C1 counterexample: an HTTP 500 whose response body is null is a
RemoteError, yet the normalizer returns no envelope at all — the member
access `error.response?.data.message` itself raises a TypeError. -/
theorem handleAxiosError_null_body_faults :
    handleAxiosError (.axios ⟨some ⟨500, Json.null⟩, "Request failed with status code 500"⟩) =
      .error (.typeError "Cannot read properties of null") := rfl

/-- C1 witness at the spec's own example input. -/
theorem handleAxiosError_http_failure_message_witness :
    handleAxiosError (.axios ⟨some ⟨500, .obj [("message", .str "db down")]⟩,
      "Request failed with status code 500"⟩) =
      .ok (errorEnvelope ("API error: " ++ specRemoteMessage
        ⟨some ⟨500, .obj [("message", .str "db down")]⟩,
          "Request failed with status code 500"⟩)) :=
  (handleAxiosError_http_failure_message
    ⟨some ⟨500, .obj [("message", .str "db down")]⟩, "Request failed with status code 500"⟩
    (by intro r hr hnull; rw [Option.some.injEq] at hr; rw [← hr] at hnull;
        exact Json.noConfusion hnull)).1

/-- C2 (amended): for every tool, a success and every recognized
failure whose HTTP response body (when a response is present) is not
null produce exactly one envelope on the dispatch path. -/
theorem dispatch_single_envelope (t : Tool) (outcome : RemoteOutcome)
    (hrec : recognizedOutcome outcome)
    (hsafe : ∀ e r, outcome = .failure (.axios e) → e.response = some r →
      r.data ≠ Json.null) :
    envelopesProduced t outcome = 1 := by
  cases outcome with
  | success data => cases t <;> rfl
  | failure err =>
    cases err with
    | axios e =>
      have h := handleAxiosError_safe e (fun r hr => hsafe e r rfl hr)
      cases t <;> simp [envelopesProduced, toolHandler, getIncidentsHandler,
        addIncidentHandler, analyzeRootCauseHandler, analyzePatternsHandler,
        searchIncidentsHandler, getStatsHandler, h]
    | other v => exact absurd hrec (by simp [recognizedOutcome])

/-- C2 counterexample: an HTTP 500 with a null body is an outcome of a
recognized kind (it is an axios error), yet the dispatch path of
`get_incidents` produces zero envelopes — the normalizer faults. -/
theorem dispatch_zero_envelopes_on_null_body :
    recognizedOutcome (.failure (.axios ⟨some ⟨500, Json.null⟩, "Request failed with status code 500"⟩)) ∧
    envelopesProduced Tool.get_incidents (.failure (.axios
      ⟨some ⟨500, Json.null⟩, "Request failed with status code 500"⟩)) = 0 :=
  ⟨trivial, rfl⟩

/-- C2 witness: a successful `get_stats` call produces exactly one
envelope. -/
theorem dispatch_single_envelope_witness :
    envelopesProduced Tool.get_stats (.success (.obj [("total", .num 7)])) = 1 :=
  dispatch_single_envelope Tool.get_stats (.success (.obj [("total", .num 7)]))
    trivial (by intro e r h; exact RemoteOutcome.noConfusion h)

/-- C3: a thrown value that is not an axios error is not a recognized
failure kind, and the normalizer re-raises it unchanged instead of
converting it into an error envelope. -/
theorem handleAxiosError_reraises_unrecognized (v : Json) :
    ¬ recognizedOutcome (.failure (.other v)) ∧
    handleAxiosError (.other v) = .error (.rethrown (.other v)) :=
  ⟨fun h => h, rfl⟩

/-- C3 witness at a concrete unrecognized fault. -/
theorem handleAxiosError_reraises_unrecognized_witness :
    handleAxiosError (.other (.str "TypeError: boom")) =
      .error (.rethrown (.other (.str "TypeError: boom"))) :=
  (handleAxiosError_reraises_unrecognized (.str "TypeError: boom")).2

/-- C4: a connection failure or timeout (axios error without a
response) yields, for every tool, an envelope with `isError = true`
whose text begins with "API error:", and the handler returns rather
than throwing. -/
theorem network_error_envelope (t : Tool) (cause : String) :
    toolHandler t (.failure (.axios ⟨none, cause⟩)) =
      .ok (errorEnvelope ("API error: " ++ cause)) ∧
    (errorEnvelope ("API error: " ++ cause)).isError = some true ∧
    ∃ tail, "API error: " ++ cause = "API error:" ++ tail := by
  refine ⟨?_, rfl, ⟨" " ++ cause, ?_⟩⟩
  · cases t <;> rfl
  · cases cause with | mk l => rfl

/-- C4 witness at a concrete timeout message. -/
theorem network_error_envelope_witness :
    toolHandler Tool.search_incidents (.failure (.axios ⟨none,
      "timeout of 30000ms exceeded"⟩)) =
      .ok (errorEnvelope ("API error: " ++ "timeout of 30000ms exceeded")) :=
  (network_error_envelope Tool.search_incidents "timeout of 30000ms exceeded").1
/-- C5: for the three query tools, an invocation whose arguments omit
`k` is validated with `k = 5` and the outbound request carries `k = 5`;
an explicit numeric `k` passes through unchanged into the outbound
request of each tool. -/
theorem query_tools_k_default_and_passthrough (fields : List (String × Json))
    (q : String) (hq : lookupField fields "query" = some (.str q)) :
    (lookupField fields "k" = none →
      parseAnalyzeArgs (.obj fields) = .ok ⟨q, 5⟩ ∧
      (analyzeRootCauseRequest ⟨q, 5⟩).payload =
        .obj [("query", .str q), ("k", .num 5)] ∧
      (analyzePatternsRequest ⟨q, 5⟩).payload =
        .obj [("query", .str q), ("k", .num 5)] ∧
      (searchIncidentsRequest ⟨q, 5⟩).payload =
        .obj [("query", .str q), ("k", .num 5)]) ∧
    (∀ n : Int, lookupField fields "k" = some (.num n) →
      parseAnalyzeArgs (.obj fields) = .ok ⟨q, n⟩ ∧
      (analyzeRootCauseRequest ⟨q, n⟩).payload =
        .obj [("query", .str q), ("k", .num n)] ∧
      (analyzePatternsRequest ⟨q, n⟩).payload =
        .obj [("query", .str q), ("k", .num n)] ∧
      (searchIncidentsRequest ⟨q, n⟩).payload =
        .obj [("query", .str q), ("k", .num n)]) := by
  constructor
  · intro hk
    exact ⟨by simp [parseAnalyzeArgs, hq, hk], rfl, rfl, rfl⟩
  · intro n hk
    exact ⟨by simp [parseAnalyzeArgs, hq, hk], rfl, rfl, rfl⟩

/-- C5 witness: an explicit `k = 8` appears verbatim in the outbound
request. -/
theorem query_tools_k_witness :
    parseAnalyzeArgs (.obj [("query", .str "db timeout"), ("k", .num 8)]) =
      .ok ⟨"db timeout", 8⟩ ∧
    (analyzeRootCauseRequest ⟨"db timeout", 8⟩).payload =
      .obj [("query", .str "db timeout"), ("k", .num 8)] ∧
    (analyzePatternsRequest ⟨"db timeout", 8⟩).payload =
      .obj [("query", .str "db timeout"), ("k", .num 8)] ∧
    (searchIncidentsRequest ⟨"db timeout", 8⟩).payload =
      .obj [("query", .str "db timeout"), ("k", .num 8)] :=
  (query_tools_k_default_and_passthrough
    [("query", .str "db timeout"), ("k", .num 8)] "db timeout" rfl).2 8 rfl

/-- C6: an `add_incident` record missing `incident_id`, or whose
`resolution_time_mins` is not a number, fails zod validation before the
handler runs, and the HTTP client is invoked zero times for that
invocation. -/
theorem add_incident_validation_blocks_call
    (fields : List (String × Json)) (outcome : RemoteOutcome)
    (h : lookupField fields "incident_id" = none ∨
         ∀ n : Int, lookupField fields "resolution_time_mins" ≠ some (.num n)) :
    (∃ e, parseAddIncidentArgs (.obj [("incident", .obj fields)]) = .error e) ∧
    (addIncidentInvoke (.obj [("incident", .obj fields)]) outcome).1 = 0 := by
  have hargs : parseAddIncidentArgs (.obj [("incident", .obj fields)]) =
      parseIncident (.obj fields) := by
    simp [parseAddIncidentArgs, lookupField]
  cases hres : parseIncident (.obj fields) with
  | ok inc =>
    obtain ⟨h1, h2⟩ := parseIncident_ok_fields hres
    cases h with
    | inl hmiss => rw [hmiss] at h1; exact absurd h1 (by simp)
    | inr hnum => exact absurd h2 (hnum _)
  | error e =>
    refine ⟨⟨e, by rw [hargs, hres]⟩, ?_⟩
    simp [addIncidentInvoke, hargs, hres]

/-- C6 witness: the empty record is missing `incident_id`; validation
fails and no HTTP call happens. -/
theorem add_incident_validation_witness :
    (∃ e, parseAddIncidentArgs (.obj [("incident", .obj [])]) = .error e) ∧
    (addIncidentInvoke (.obj [("incident", .obj [])]) (.success .null)).1 = 0 :=
  add_incident_validation_blocks_call [] (.success .null) (Or.inl rfl)

/-- C7: the registry holds exactly the six tools, each resolving once
to its declared remote call, and any other name resolves to nothing. -/
theorem tool_registry_catalogue :
    resolveTool "get_incidents" = some ("GET", "/api/incidents") ∧
    resolveTool "add_incident" = some ("POST", "/api/incidents") ∧
    resolveTool "analyze_root_cause" = some ("POST", "/api/analyze/root-cause") ∧
    resolveTool "analyze_patterns" = some ("POST", "/api/analyze/patterns") ∧
    resolveTool "search_incidents" = some ("GET", "/api/search") ∧
    resolveTool "get_stats" = some ("GET", "/api/incidents/stats") ∧
    (toolRegistry.map Prod.fst).count "get_incidents" = 1 ∧
    (toolRegistry.map Prod.fst).count "add_incident" = 1 ∧
    (toolRegistry.map Prod.fst).count "analyze_root_cause" = 1 ∧
    (toolRegistry.map Prod.fst).count "analyze_patterns" = 1 ∧
    (toolRegistry.map Prod.fst).count "search_incidents" = 1 ∧
    (toolRegistry.map Prod.fst).count "get_stats" = 1 ∧
    ∀ name, name ∉ toolRegistry.map Prod.fst → resolveTool name = none := by
  refine ⟨rfl, rfl, rfl, rfl, rfl, rfl,
    by decide, by decide, by decide, by decide, by decide, by decide, ?_⟩
  intro name hn
  simp only [toolRegistry, List.map_cons, List.map_nil, List.mem_cons,
    List.not_mem_nil, or_false, not_or] at hn
  obtain ⟨n1, n2, n3, n4, n5, n6⟩ := hn
  simp only [resolveTool, toolRegistry, lookupTool]
  rw [if_neg (fun he => n1 he.symm), if_neg (fun he => n2 he.symm),
    if_neg (fun he => n3 he.symm), if_neg (fun he => n4 he.symm),
    if_neg (fun he => n5 he.symm), if_neg (fun he => n6 he.symm)]

/-- C7 witness: an unregistered name resolves to nothing. -/
theorem tool_registry_catalogue_witness : resolveTool "bogus_tool" = none :=
  tool_registry_catalogue.2.2.2.2.2.2.2.2.2.2.2.2 "bogus_tool" (by decide)

/-- C8: on a 2xx response, `get_incidents` returns an envelope with a
single text block holding the serialized body and no error flag, and
reading that text back as JSON returns exactly the response body — the
serialization is lossless. -/
theorem get_incidents_roundtrip (data : Json) :
    getIncidentsHandler (.success data) =
      .ok ⟨[⟨"text", Json.stringify data⟩], none⟩ ∧
    jsonParse (Json.stringify data) = some data :=
  ⟨rfl, jsonParse_stringify data⟩

/-- C8 witness at the spec's example body. -/
theorem get_incidents_roundtrip_witness :
    getIncidentsHandler (.success (.obj [("results",
        .arr [.obj [("incident_id", .str "INC-1")]])])) =
      .ok ⟨[⟨"text", Json.stringify (.obj [("results",
        .arr [.obj [("incident_id", .str "INC-1")]])])⟩], none⟩ ∧
    jsonParse (Json.stringify (.obj [("results",
        .arr [.obj [("incident_id", .str "INC-1")]])])) =
      some (.obj [("results", .arr [.obj [("incident_id", .str "INC-1")]])]) :=
  get_incidents_roundtrip (.obj [("results",
    .arr [.obj [("incident_id", .str "INC-1")]])])

/-- C9: each of the four optional incident fields may independently be
absent or an explicit null; validation succeeds either way whenever the
required fields are well-typed. -/
theorem optional_fields_absent_or_null_ok
    (id ts cat sev desc : String) (rtm : Int) (b1 b2 b3 b4 : Bool) :
    parseIncident (.obj ([("incident_id", .str id), ("timestamp", .str ts),
      ("category", .str cat), ("severity", .str sev),
      ("description", .str desc)] ++
      ((if b1 then [("root_cause", Json.null)] else []) ++
        ((if b2 then [("resolution", Json.null)] else []) ++
          ((if b3 then [("affected_components", Json.null)] else []) ++
            ((if b4 then [("impact", Json.null)] else []) ++
              [("resolution_time_mins", .num rtm)])))))) =
    .ok ⟨id, ts, cat, sev, desc,
      if b1 then some none else none,
      if b2 then some none else none,
      if b3 then some none else none,
      if b4 then some none else none, rtm⟩ := by
  cases b1 <;> cases b2 <;> cases b3 <;> cases b4 <;> rfl

/-- C9 witness at one absent/null mixture. -/
theorem optional_fields_witness :
    parseIncident (.obj ([("incident_id", .str "INC-9"),
      ("timestamp", .str "2024-05-01T10:00:00Z"), ("category", .str "Network"),
      ("severity", .str "High"), ("description", .str "link flap")] ++
      ((if true then [("root_cause", Json.null)] else []) ++
        ((if false then [("resolution", Json.null)] else []) ++
          ((if true then [("affected_components", Json.null)] else []) ++
            ((if false then [("impact", Json.null)] else []) ++
              [("resolution_time_mins", .num 30)])))))) =
    .ok ⟨"INC-9", "2024-05-01T10:00:00Z", "Network", "High", "link flap",
      if true then some none else none,
      if false then some none else none,
      if true then some none else none,
      if false then some none else none, 30⟩ :=
  optional_fields_absent_or_null_ok "INC-9" "2024-05-01T10:00:00Z" "Network"
    "High" "link flap" 30 true false true false

/-- C10: there is an axios error with a present response whose body is
null for which the normalizer raises a TypeError while extracting the
message field, instead of returning an error envelope: the member
access assumes a present body is always an object. -/
theorem null_body_type_error :
    (⟨some ⟨500, Json.null⟩, "Request failed with status code 500"⟩
        : AxiosError).response ≠ none ∧
    handleAxiosError (.axios ⟨some ⟨500, Json.null⟩,
        "Request failed with status code 500"⟩) =
      .error (.typeError "Cannot read properties of null") :=
  ⟨fun h => Option.noConfusion h, rfl⟩
end IncidentMCP
